import Mathlib

/-!
# Verification of the azrealtime client library

Shallow embedding of the resilience layer (retry with backoff, circuit
breaker), the streaming assemblers (text and audio), session validation,
audio buffer appending and correlation-identifier generation of the
`azrealtime` Go package, together with theorems settling the specification
claims about them.

Conventions of the embedding:
* Go `float64` arithmetic is modelled over `ℚ` (the concrete values in all
  statements are exactly representable, so no rounding questions arise).
* Go `int` counters and millisecond/nanosecond durations are modelled as
  `ℤ`; retry counts as `ℕ`.
* Go `string` is modelled as Lean `String`; Go `len` of a string is the
  UTF-8 byte count `String.utf8ByteSize` (Go strings are byte slices).
* Go maps are modelled as functions into `Option`.
* Wall-clock readings (`time.Now`) are passed in explicitly as parameters.
-/

namespace Azrealtime

/-! ## Error model

Go errors relevant to the retry policy.  `errorAs` in `resilience.go`
performs a direct type assertion on the top-level error value, so only the
head constructor matters for retryability. -/

/-- Model of the Go `error` values produced by this package: the typed
errors `ConfigError`, `ConnectionError`, `SendError` from `client.go` and
plain `errors.New`/`fmt.Errorf` errors.  `nilErr` stands for Go's `nil`
error when it appears as a wrapped cause. -/
inductive GoError where
  | nilErr
  | plain (msg : String)
  | configE (field value message : String)
  | connectionE (url operation : String) (cause : GoError)
  | sendE (eventType eventID : String) (cause : GoError)
deriving DecidableEq, Repr

/-- `errorAs(err, &configErr)`: direct type assertion for `*ConfigError`. -/
def GoError.isConfigError : GoError → Bool
  | .configE _ _ _ => true
  | _ => false

/-- `errorAs(err, &connErr)`: direct type assertion for `*ConnectionError`. -/
def GoError.isConnectionError : GoError → Bool
  | .connectionE _ _ _ => true
  | _ => false

/-- `errorAs(err, &sendErr)`: direct type assertion for `*SendError`. -/
def GoError.isSendError : GoError → Bool
  | .sendE _ _ _ => true
  | _ => false

/-- The retryability predicate installed by `DefaultRetryConfig`
(`resilience.go` lines 68–78): `ConfigError` is not retried;
`ConnectionError` and `SendError` are. -/
def defaultRetryableErrors (e : GoError) : Bool :=
  if e.isConfigError then false
  else e.isConnectionError || e.isSendError

/-! ## Retry configuration and backoff delay (`resilience.go`) -/

/-- Model of `RetryConfig`.  Durations and the float fields are rationals
(nanoseconds for the delays, mirroring `time.Duration`); `MaxRetries` is
taken non-negative.  `RetryableErrors == nil` is `none`. -/
structure RetryConfig where
  maxRetries : ℕ
  baseDelay : ℚ
  maxDelay : ℚ
  multiplier : ℚ
  jitter : ℚ
  retryableErrors : Option (GoError → Bool)

/-- Model of `DefaultRetryConfig()` (`resilience.go` lines 61–80):
3 retries, 1 s base delay, 30 s max delay, multiplier 2, jitter 0.1,
with `defaultRetryableErrors` as the predicate. -/
def defaultRetryConfig : RetryConfig where
  maxRetries := 3
  baseDelay := 1000000000
  maxDelay := 30000000000
  multiplier := 2
  jitter := 1/10
  retryableErrors := some defaultRetryableErrors

/-- The float value computed inside `calculateDelay` (`resilience.go`
lines 124–140) before the conversion to `time.Duration`: the exponential
term is capped at `MaxDelay`, and then — after the cap — the jitter term
`delay * Jitter` is added (the Go line
`delay += (2.0*jitterAmount) - jitterAmount` simplifies to
`delay += jitterAmount`). -/
def calculateDelayQ (attempt : ℕ) (config : RetryConfig) : ℚ :=
  let delay := config.baseDelay * config.multiplier ^ attempt
  let delay := if delay > config.maxDelay then config.maxDelay else delay
  if config.jitter > 0 then delay + delay * config.jitter else delay

/-- Model of `calculateDelay`: the final `time.Duration(delay)` conversion
truncates the float toward zero. -/
def calculateDelay (attempt : ℕ) (config : RetryConfig) : ℤ :=
  let q := calculateDelayQ attempt config
  if q < 0 then -(Int.floor (-q)) else Int.floor q

/-! ## `WithRetry` (`resilience.go` lines 86–121)

The operation is modelled as a function from the attempt index to its
result (`none` = success, `some e` = failure with error `e`); the waiting
between attempts and context cancellation are elided (the context is taken
to be never cancelled).  The outcome records, besides the Go return value,
how many times the operation was invoked. -/

/-- The value returned by `WithRetry`:  `ok` is a `nil` error; `nonRetryable e`
is `fmt.Errorf("non-retryable error: %w", err)`;
`exhausted n e` is `fmt.Errorf("operation failed after %d attempts: %w", ...)`
with reported attempt count `n` wrapping the last failure `e`. -/
inductive RetryOutcome where
  | ok
  | nonRetryable (e : GoError)
  | exhausted (attempts : ℕ) (e : GoError)
deriving DecidableEq, Repr

/-- Should the error be treated as non-retryable?  Mirrors
`config.RetryableErrors != nil && !config.RetryableErrors(err)`. -/
def RetryConfig.nonRetryable (config : RetryConfig) (e : GoError) : Bool :=
  match config.retryableErrors with
  | some p => !(p e)
  | none => false

/-- The loop body of `WithRetry`: `left` is the number of loop iterations
still available after the current one (initially `MaxRetries`).  Returns
the last error seen at exhaustion together with the count of operation
invocations performed. -/
def withRetryAux (config : RetryConfig) (op : ℕ → Option GoError) :
    ℕ → ℕ → (Option GoError × ℕ)
  | _, 0 => (none, 0)
  | attempt, left + 1 =>
    match op attempt with
    | none => (none, 1)
    | some e =>
      if config.nonRetryable e then (some e, 1)
      else if left = 0 then (some e, 1)
      else
        let r := withRetryAux config op (attempt + 1) left
        (r.1, r.2 + 1)

/-- Model of `WithRetry`: runs `withRetryAux` from attempt 0 with
`MaxRetries + 1` iterations available, then shapes the Go return value.
The reported attempt count in the exhaustion error is `MaxRetries + 1`
(the Go code prints `config.MaxRetries+1`).  The second component is the
number of times the operation was invoked. -/
def withRetry (config : RetryConfig) (op : ℕ → Option GoError) :
    RetryOutcome × ℕ :=
  let r := withRetryAux config op 0 (config.maxRetries + 1)
  match r.1 with
  | none => (.ok, r.2)
  | some e =>
    if config.nonRetryable e then (.nonRetryable e, r.2)
    else (.exhausted (config.maxRetries + 1) e, r.2)

/-! ## Circuit breaker (`resilience.go` lines 218–319)

Wall-clock readings are passed to each step as an integer `now`
(nanoseconds); `time.Since(t) >= d` becomes `now - t ≥ d`. -/

/-- Model of `CircuitBreakerConfig`. -/
structure CircuitBreakerConfig where
  failureThreshold : ℤ
  recoveryTimeout : ℤ
  successThreshold : ℤ
deriving DecidableEq, Repr

/-- Model of `CircuitBreakerState`. -/
inductive CircuitBreakerState where
  | closed
  | open
  | halfOpen
deriving DecidableEq, Repr

/-- Model of the `CircuitBreaker` struct. -/
structure CircuitBreaker where
  config : CircuitBreakerConfig
  state : CircuitBreakerState
  failures : ℤ
  successes : ℤ
  lastFailureTime : ℤ
deriving DecidableEq, Repr

/-- Model of `NewCircuitBreaker`: state `Closed`, zero counters (the Go
zero `time.Time` is modelled as instant 0). -/
def newCircuitBreaker (config : CircuitBreakerConfig) : CircuitBreaker where
  config := config
  state := .closed
  failures := 0
  successes := 0
  lastFailureTime := 0

/-- Model of `shouldAllow` (which mutates the state in the `Open` branch):
returns the decision together with the updated breaker. -/
def shouldAllow (now : ℤ) (cb : CircuitBreaker) : Bool × CircuitBreaker :=
  match cb.state with
  | .closed => (true, cb)
  | .open =>
    if now - cb.lastFailureTime ≥ cb.config.recoveryTimeout then
      (true, { cb with state := .halfOpen })
    else (false, cb)
  | .halfOpen => (true, cb)

/-- Model of `onFailure`: increment failures, clear successes, stamp the
failure time, and open the circuit when the threshold is reached. -/
def onFailure (now : ℤ) (cb : CircuitBreaker) : CircuitBreaker :=
  let cb := { cb with failures := cb.failures + 1, successes := 0,
                      lastFailureTime := now }
  if cb.failures ≥ cb.config.failureThreshold then { cb with state := .open }
  else cb

/-- Model of `onSuccess`: increment successes, clear failures, and close
the circuit when half-open and the success threshold is reached. -/
def onSuccess (cb : CircuitBreaker) : CircuitBreaker :=
  let cb := { cb with successes := cb.successes + 1, failures := 0 }
  if cb.state = .halfOpen ∧ cb.successes ≥ cb.config.successThreshold then
    { cb with state := .closed }
  else cb

/-- The value `Execute` returns: the circuit-open error
(`"circuit breaker is open"`), the operation's own error, or `nil`. -/
inductive ExecResult where
  | circuitOpen
  | opError
  | opOk
deriving DecidableEq, Repr

/-- Model of `Execute`: the operation's behaviour is the boolean `opFails`
(`true` = the operation would return an error).  When `shouldAllow` denies,
the operation is not invoked and the breaker is returned unchanged by the
denial branch. -/
def execute (now : ℤ) (opFails : Bool) (cb : CircuitBreaker) :
    ExecResult × CircuitBreaker :=
  let r := shouldAllow now cb
  if !r.1 then (.circuitOpen, r.2)
  else if opFails then (.opError, onFailure now r.2)
  else (.opOk, onSuccess r.2)

/-- Folding `Execute` over a list of steps `(now, opFails)`. -/
def executeSeq (steps : List (ℤ × Bool)) (cb : CircuitBreaker) :
    CircuitBreaker :=
  steps.foldl (fun cb s => (execute s.1 s.2 cb).2) cb

/-- "No run of `N` consecutive failures occurs": scanning the operation
results (`true` = failure) with `f` consecutive failures already seen,
every failure keeps the running count strictly below `N` and every
success resets it. -/
def failRunsBelow (N : ℤ) : ℤ → List Bool → Bool
  | _, [] => true
  | f, b :: rest =>
    if b then
      if f + 1 < N then failRunsBelow N (f + 1) rest else false
    else failRunsBelow N 0 rest

/-! ## Base64 decoding

Model of `encoding/base64` `StdEncoding.DecodeString` (external standard
library used by `audio.go`): standard alphabet, mandatory `=` padding on
the final quantum, carriage returns and newlines ignored, decode failure
reported as an error (`none`).  Bytes are naturals `< 256`. -/

/-- Value of a character in the standard base64 alphabet. -/
def b64Val (c : Char) : Option ℕ :=
  if 'A' ≤ c ∧ c ≤ 'Z' then some (c.toNat - 65)
  else if 'a' ≤ c ∧ c ≤ 'z' then some (c.toNat - 97 + 26)
  else if '0' ≤ c ∧ c ≤ '9' then some (c.toNat - 48 + 52)
  else if c = '+' then some 62
  else if c = '/' then some 63
  else none

/-- Decode a stream of base64 characters quantum by quantum.  A padded
quantum must be the last one. -/
def b64Chunks : List Char → Option (List ℕ)
  | [] => some []
  | a :: b :: c :: d :: rest =>
    match b64Val a, b64Val b with
    | some va, some vb =>
      if d = '=' then
        if rest ≠ [] then none
        else if c = '=' then some [va * 4 + vb / 16]
        else
          match b64Val c with
          | some vc => some [va * 4 + vb / 16, (vb % 16) * 16 + vc / 4]
          | none => none
      else
        match b64Val c, b64Val d with
        | some vc, some vd =>
          (b64Chunks rest).map fun tail =>
            (va * 4 + vb / 16) :: ((vb % 16) * 16 + vc / 4) ::
              ((vc % 4) * 64 + vd) :: tail
        | _, _ => none
    | _, _ => none
  | _ => none

/-- Model of `base64.StdEncoding.DecodeString`. -/
def base64Decode (s : String) : Option (List ℕ) :=
  b64Chunks (s.data.filter fun c => c ≠ '\n' ∧ c ≠ '\r')

/-! ## Streaming assemblers (`text.go` and `audio.go`)

The Go `map[string][]byte` is a function into `Option`; a text buffer is
kept as a `String` (the Go code only ever appends the bytes of strings and
converts the buffer back with `string(buf)`, so the byte/character view is
the same). -/

/-- The fields of `ResponseTextDelta` the assembler reads (the remaining
JSON metadata fields are never consulted). -/
structure ResponseTextDelta where
  responseID : String
  delta : String
deriving DecidableEq, Repr

/-- The fields of `ResponseTextDone` the assembler reads. -/
structure ResponseTextDone where
  responseID : String
  text : String
deriving DecidableEq, Repr

/-- The fields of `ResponseAudioDelta` the assembler reads. -/
structure ResponseAudioDelta where
  responseID : String
  deltaBase64 : String
deriving DecidableEq, Repr

/-- Model of `TextAssembler`. -/
structure TextAssembler where
  data : String → Option String

/-- Model of `NewTextAssembler`: an empty map. -/
def newTextAssembler : TextAssembler := ⟨fun _ => none⟩

/-- Model of `TextAssembler.OnDelta`: append the delta's bytes to the
key's buffer, creating it if absent (`append` on a `nil` slice). -/
def textOnDelta (t : TextAssembler) (e : ResponseTextDelta) : TextAssembler :=
  ⟨fun k => if k = e.responseID
    then some ((t.data e.responseID).getD "" ++ e.delta)
    else t.data k⟩

/-- Model of `TextAssembler.OnDone`: if the event carries complete text,
delete the buffer and return that text; otherwise return the assembled
buffer (empty for a missing key) and delete it. -/
def textOnDone (t : TextAssembler) (e : ResponseTextDone) :
    String × TextAssembler :=
  let rest : TextAssembler := ⟨fun k => if k = e.responseID then none else t.data k⟩
  if e.text ≠ "" then (e.text, rest)
  else ((t.data e.responseID).getD "", rest)

/-- Model of `AudioAssembler`. -/
structure AudioAssembler where
  data : String → Option (List ℕ)

/-- Model of `NewAudioAssembler`: an empty map. -/
def newAudioAssembler : AudioAssembler := ⟨fun _ => none⟩

/-- Model of `AudioAssembler.OnDelta`: base64-decode the delta and append
the bytes to the key's buffer; a decode failure returns the error (`none`)
and leaves the map untouched. -/
def audioOnDelta (a : AudioAssembler) (e : ResponseAudioDelta) :
    Option AudioAssembler :=
  (base64Decode e.deltaBase64).map fun b =>
    ⟨fun k => if k = e.responseID
      then some ((a.data e.responseID).getD [] ++ b)
      else a.data k⟩

/-- Model of `AudioAssembler.OnDone`: return the buffer (empty for a
missing key) and delete the entry. -/
def audioOnDone (a : AudioAssembler) (id : String) :
    List ℕ × AudioAssembler :=
  ((a.data id).getD [], ⟨fun k => if k = id then none else a.data k⟩)

/-- Feeding a sequence of text deltas for one key. -/
def textDeltas (t : TextAssembler) (key : String) (cs : List String) :
    TextAssembler :=
  cs.foldl (fun t c => textOnDelta t ⟨key, c⟩) t

/-- Feeding a sequence of audio deltas for one key; stops with the error
if any delta fails to decode. -/
def audioDeltas (a : AudioAssembler) (key : String) :
    List String → Option AudioAssembler
  | [] => some a
  | c :: cs =>
    match audioOnDelta a ⟨key, c⟩ with
    | some a' => audioDeltas a' key cs
    | none => none

/-- Decoding every delta of a list: `some` of the byte chunks when each
delta is valid base64. -/
def decodeAll : List String → Option (List (List ℕ))
  | [] => some []
  | c :: cs =>
    match base64Decode c, decodeAll cs with
    | some b, some bs => some (b :: bs)
    | _, _ => none

/-- Concatenation of a list of strings (the claim's c1 ‖ c2 ‖ … ‖ cn). -/
def concatAll (cs : List String) : String :=
  cs.foldr (· ++ ·) ""

/-! ## `AppendPCM16` (`audio.go` lines 15–40) -/

/-- Return value of the modelled `AppendPCM16` with a healthy transport:
either an error, or `none` when no transport write occurs (the empty
no-op), or `some payload` when a write of the base64-encoded audio
happens. -/
inductive AppendResult where
  | errEvenBytes (msg : String)
  | errTooLarge (msg : String)
  | sent (audioBytes : List ℕ)
  | noWrite
deriving DecidableEq, Repr

/-- The message of the odd-length error: contains "even number of bytes". -/
def evenBytesMsg : String := "PCM16 data must have even number of bytes"

/-- The message of the oversize error (`fmt.Errorf`): contains "too large". -/
def tooLargeMsg (n : ℕ) : String :=
  "PCM data too large (" ++ toString n ++ " bytes), maximum is 1048576 bytes"

/-- Model of `Client.AppendPCM16` (non-nil context, transport healthy):
empty input is a successful no-op before any other check; then odd length
is rejected; then length above 1 MiB (1048576 bytes) is rejected; else the
data is sent. -/
def appendPCM16 (pcmLE : List ℕ) : AppendResult :=
  if pcmLE.length = 0 then .noWrite
  else if pcmLE.length % 2 ≠ 0 then .errEvenBytes evenBytesMsg
  else if pcmLE.length > 1048576 then .errTooLarge (tooLargeMsg pcmLE.length)
  else .sent pcmLE

/-! ## Correlation identifiers (`client.go` lines 262–266) -/

/-- Model of the identifier built by `nextEventID`: `fmt.Sprintf("evt_%d",
time.Now().UnixNano())` applied to the observed clock reading. -/
def eventID (unixNano : ℤ) : String := "evt_" ++ toString unixNano

/-- The identifiers generated by a run of `nextEventID` calls whose clock
readings are the given list. -/
def eventIDsOf (clockReadings : List ℤ) : List String :=
  clockReadings.map eventID

/-! ## Session validation (`session.go`, the `ValidateSession` with
semantic VAD support)

`float64` fields are rationals, `int` fields are integers.  Go `len` on a
string counts UTF-8 bytes; `goLen` is that byte count. -/

/-- Go `len` of a string: the UTF-8 byte length. -/
def goLen (s : String) : ℕ := (s.data.map Char.utf8Size).sum

/-- Model of `InputTranscription` (never consulted by validation). -/
structure InputTranscription where
  model : String
  language : String
  prompt : Option String
deriving DecidableEq, Repr

/-- Model of `TurnDetection`. -/
structure TurnDetection where
  type : String
  threshold : ℚ
  prefixPaddingMS : ℤ
  silenceDurationMS : ℤ
  createResponse : Bool
  interruptResponse : Bool
  eagerness : String
deriving DecidableEq, Repr

/-- Model of `Session` (the `Tools` elements have opaque type `any`). -/
structure Session where
  voice : Option String
  instructions : Option String
  inputAudioFormat : Option String
  outputAudioFormat : Option String
  inputTranscription : Option InputTranscription
  turnDetection : Option TurnDetection
  tools : List Unit
deriving DecidableEq, Repr

/-- A `Session` with no field set. -/
def emptySession : Session :=
  ⟨none, none, none, none, none, none, []⟩

/-- The seven valid voices. -/
def validVoices : List String :=
  ["alloy", "echo", "fable", "onyx", "nova", "shimmer", "verse"]

/-- The three valid audio formats. -/
def validFormats : List String := ["pcm16", "g711_ulaw", "g711_alaw"]

/-- The two valid turn-detection types. -/
def validTurnTypes : List String := ["server_vad", "semantic_vad"]

/-- The four valid eagerness levels. -/
def validEagerness : List String := ["low", "medium", "high", "auto"]

/-- The errors `ValidateSession` can return, one constructor per
`return fmt.Errorf`/`errors.New` site, carrying the offending value. -/
inductive ValidationError where
  | invalidVoice (v : String)
  | invalidInputAudioFormat (f : String)
  | invalidOutputAudioFormat (f : String)
  | emptyTurnDetectionType
  | invalidTurnDetectionType (t : String)
  | thresholdOutOfRange (x : ℚ)
  | negativePrefixPadding (n : ℤ)
  | negativeSilenceDuration (n : ℤ)
  | invalidEagerness (e : String)
  | instructionsTooLong (n : ℕ)
deriving DecidableEq, Repr

/-- Go `%q` for the plain values occurring here (no escaping needed). -/
def goQuote (s : String) : String := "\x22" ++ s ++ "\x22"

/-- Go `%v` of a `[]string`. -/
def goSliceFmt (xs : List String) : String :=
  "[" ++ String.intercalate " " xs ++ "]"

/-- Go `%f` (six decimal places) for the exactly-representable
non-negative rationals that arise in these messages. -/
def goFloatFmt (q : ℚ) : String :=
  let scaled := (Int.floor (q * 1000000)).toNat
  let frac := toString (scaled % 1000000)
  let pad := String.mk (List.replicate (6 - frac.length) '0')
  toString (scaled / 1000000) ++ "." ++ pad ++ frac

/-- The message of each validation error, mirroring the `fmt.Errorf`
format strings of `ValidateSession`. -/
def validationMessage : ValidationError → String
  | .invalidVoice v =>
    "invalid voice " ++ goQuote v ++ ", must be one of: " ++ goSliceFmt validVoices
  | .invalidInputAudioFormat f =>
    "invalid input audio format " ++ goQuote f ++ ", must be one of: " ++
      goSliceFmt validFormats
  | .invalidOutputAudioFormat f =>
    "invalid output audio format " ++ goQuote f ++ ", must be one of: " ++
      goSliceFmt validFormats
  | .emptyTurnDetectionType => "turn detection type cannot be empty"
  | .invalidTurnDetectionType t =>
    "invalid turn detection type " ++ goQuote t ++ ", must be one of: " ++
      goSliceFmt validTurnTypes
  | .thresholdOutOfRange x =>
    "turn detection threshold must be between 0.0 and 1.0, got " ++ goFloatFmt x
  | .negativePrefixPadding n =>
    "prefix padding must be non-negative, got " ++ toString n
  | .negativeSilenceDuration n =>
    "silence duration must be non-negative, got " ++ toString n
  | .invalidEagerness e =>
    "invalid eagerness " ++ goQuote e ++ ", must be one of: " ++
      goSliceFmt validEagerness
  | .instructionsTooLong n =>
    "instructions too long (" ++ toString n ++ " characters), maximum is 10000"

/-- The voice check of `ValidateSession`. -/
def checkVoice (s : Session) : Option ValidationError :=
  match s.voice with
  | some v => if v ∈ validVoices then none else some (.invalidVoice v)
  | none => none

/-- The input-audio-format check of `ValidateSession`. -/
def checkInputFormat (s : Session) : Option ValidationError :=
  match s.inputAudioFormat with
  | some f =>
    if f ∈ validFormats then none else some (.invalidInputAudioFormat f)
  | none => none

/-- The output-audio-format check of `ValidateSession`. -/
def checkOutputFormat (s : Session) : Option ValidationError :=
  match s.outputAudioFormat with
  | some f =>
    if f ∈ validFormats then none else some (.invalidOutputAudioFormat f)
  | none => none

/-- The turn-detection checks of `ValidateSession`, in source order. -/
def checkTurnDetection (s : Session) : Option ValidationError :=
  match s.turnDetection with
  | none => none
  | some td =>
    if td.type = "" then some .emptyTurnDetectionType
    else if td.type ∉ validTurnTypes then
      some (.invalidTurnDetectionType td.type)
    else
      (if td.type = "server_vad" then
        if td.threshold < 0 ∨ td.threshold > 1 then
          some (.thresholdOutOfRange td.threshold)
        else if td.prefixPaddingMS < 0 then
          some (.negativePrefixPadding td.prefixPaddingMS)
        else if td.silenceDurationMS < 0 then
          some (.negativeSilenceDuration td.silenceDurationMS)
        else none
      else none) <|>
      (if td.type = "semantic_vad" then
        if td.eagerness ≠ "" ∧ td.eagerness ∉ validEagerness then
          some (.invalidEagerness td.eagerness)
        else none
      else none)

/-- The instructions-length check of `ValidateSession`
(Go `len` counts bytes). -/
def checkInstructions (s : Session) : Option ValidationError :=
  match s.instructions with
  | some ins =>
    if goLen ins > 10000 then some (.instructionsTooLong (goLen ins)) else none
  | none => none

/-- Model of `ValidateSession`: the checks run in source order and the
first failure is returned. -/
def validateSession (s : Session) : Option ValidationError :=
  checkVoice s <|> checkInputFormat s <|> checkOutputFormat s <|>
    checkTurnDetection s <|> checkInstructions s

/-- Model of `Client.SessionUpdate` for a non-nil context and a healthy
transport: a validation failure is wrapped as
`NewSendError("session.update", "", err)`; otherwise the update is sent
and `nil` is returned. -/
def sessionUpdate (s : Session) : Option GoError :=
  match validateSession s with
  | some e => some (.sendE "session.update" "" (.plain (validationMessage e)))
  | none => none

/-! ## Specification-side predicates and concrete claim inputs -/

/-- The turn-detection domain of the spec: non-empty known type; for
`server_vad` a threshold in [0,1] and non-negative paddings; for
`semantic_vad` an eagerness, if set, among the four levels. -/
def turnDetectionOK (td : TurnDetection) : Prop :=
  td.type ≠ "" ∧ td.type ∈ validTurnTypes ∧
  (td.type = "server_vad" →
    (0 ≤ td.threshold ∧ td.threshold ≤ 1) ∧
    0 ≤ td.prefixPaddingMS ∧ 0 ≤ td.silenceDurationMS) ∧
  (td.type = "semantic_vad" → td.eagerness ≠ "" → td.eagerness ∈ validEagerness)

/-- The session domain as the code enforces it: all present fields inside
their domains, with the instructions limit measured in UTF-8 *bytes* (Go
`len`). -/
def sessionOKgo (s : Session) : Prop :=
  (∀ v ∈ s.voice, v ∈ validVoices) ∧
  (∀ f ∈ s.inputAudioFormat, f ∈ validFormats) ∧
  (∀ f ∈ s.outputAudioFormat, f ∈ validFormats) ∧
  (∀ td ∈ s.turnDetection, turnDetectionOK td) ∧
  (∀ ins ∈ s.instructions, goLen ins ≤ 10000)

/-- The session domain as the claim words it: identical except that the
instructions limit is measured in *characters*. -/
def sessionOKspec (s : Session) : Prop :=
  (∀ v ∈ s.voice, v ∈ validVoices) ∧
  (∀ f ∈ s.inputAudioFormat, f ∈ validFormats) ∧
  (∀ f ∈ s.outputAudioFormat, f ∈ validFormats) ∧
  (∀ td ∈ s.turnDetection, turnDetectionOK td) ∧
  (∀ ins ∈ s.instructions, ins.length ≤ 10000)

/-- A retry configuration with positive jitter: base 1 s, max 10 s,
multiplier 2, jitter 0.1 (the spec's own example values). -/
def cfgJitterEx : RetryConfig := ⟨5, 1000000000, 10000000000, 2, 1/10, none⟩

/-- A session whose validation fails (voice outside the seven names). -/
def badSessionC6 : Session := { emptySession with voice := some "invalid" }

/-- A server-VAD turn detection with the given threshold and all other
fields zero. -/
def tdThr (x : ℚ) : TurnDetection := ⟨"server_vad", x, 0, 0, false, false, ""⟩

/-- A session whose server-VAD threshold is 1.5. -/
def sessionThr15 : Session := { emptySession with turnDetection := some (tdThr (3/2)) }

/-- A session whose server-VAD threshold is 0.5. -/
def sessionThr05 : Session := { emptySession with turnDetection := some (tdThr (1/2)) }

/-- A session with every present field inside the documented domains. -/
def goodSession : Session :=
  ⟨some "alloy", some "Be brief", some "pcm16", some "g711_ulaw", none,
   some ⟨"server_vad", 1/2, 300, 200, true, true, ""⟩, []⟩

/-- 5001 two-byte characters: 5001 characters but 10002 UTF-8 bytes. -/
def instructionsMultibyte : String := String.mk (List.replicate 5001 'é')

/-- A session whose instructions stay within 10,000 characters but exceed
10,000 bytes. -/
def sessionMultibyte : Session :=
  { emptySession with instructions := some instructionsMultibyte }

/-- The breaker reached by: two failures (opening the circuit), then an
allowed success after the recovery timeout (half-open, one success,
failure counter cleared).  Configuration: threshold 2, timeout 5,
success threshold 2. -/
def cbHalfOpenAfterSuccess : CircuitBreaker :=
  executeSeq [((0 : ℤ), true), (1, true), (10, false)] (newCircuitBreaker ⟨2, 5, 2⟩)

/-! ## Claim C1: the streaming assemblers -/

/-- Feeding text deltas for one key appends their concatenation to that
key's buffer and leaves every other key untouched. -/
lemma textDeltas_spec (key : String) : ∀ (cs : List String) (t : TextAssembler),
    ((textDeltas t key cs).data key).getD "" =
      ((t.data key).getD "") ++ concatAll cs ∧
    ∀ k, k ≠ key → (textDeltas t key cs).data k = t.data k := by
  intro cs
  induction cs with
  | nil =>
    intro t
    exact ⟨by simp [textDeltas, concatAll, String.append_empty], fun k hk => rfl⟩
  | cons c cs ih =>
    intro t
    obtain ⟨h1, h2⟩ := ih (textOnDelta t ⟨key, c⟩)
    refine ⟨?_, ?_⟩
    · rw [show textDeltas t key (c :: cs) =
        textDeltas (textOnDelta t ⟨key, c⟩) key cs from rfl, h1]
      simp [textOnDelta, concatAll, String.append_assoc]
    · intro k hk
      rw [show textDeltas t key (c :: cs) =
        textDeltas (textOnDelta t ⟨key, c⟩) key cs from rfl, h2 k hk]
      simp [textOnDelta, hk]

/-- Feeding audio deltas for one key, when every delta decodes, appends
the concatenation of the decoded chunks to that key's buffer and leaves
every other key untouched. -/
lemma audioDeltas_spec (key : String) : ∀ (cs : List String) (bs : List (List ℕ))
    (a : AudioAssembler), decodeAll cs = some bs →
    ∃ a', audioDeltas a key cs = some a' ∧
      (a'.data key).getD [] = ((a.data key).getD []) ++ bs.flatten ∧
      ∀ k, k ≠ key → a'.data k = a.data k := by
  intro cs
  induction cs with
  | nil =>
    intro bs a h
    simp [decodeAll] at h
    subst h
    exact ⟨a, rfl, by simp, fun k hk => rfl⟩
  | cons c cs ih =>
    intro bs a h
    unfold decodeAll at h
    cases hb : base64Decode c with
    | none => rw [hb] at h; simp at h
    | some b =>
      rw [hb] at h
      cases hbs : decodeAll cs with
      | none => rw [hbs] at h; simp at h
      | some bs' =>
        rw [hbs] at h
        simp only [Option.some.injEq] at h
        subst h
        obtain ⟨a', ha', hkey, hother⟩ := ih bs'
          ⟨fun k => if k = key then some ((a.data key).getD [] ++ b) else a.data k⟩ hbs
        refine ⟨a', ?_, ?_, ?_⟩
        · show audioDeltas a key (c :: cs) = some a'
          unfold audioDeltas
          rw [show audioOnDelta a ⟨key, c⟩ = some
            ⟨fun k => if k = key then some ((a.data key).getD [] ++ b) else a.data k⟩
            from by simp [audioOnDelta, hb]]
          exact ha'
        · rw [hkey]
          simp [List.append_assoc]
        · intro k hk
          rw [hother k hk]
          simp [hk]

/-- C1: on a fresh assembler, for every key and every delta sequence, the
following `OnDone` with no final-content override returns exactly the
concatenation of the deltas and removes the key's buffer; a second
`OnDone` immediately after returns the empty value; `OnDone` for a key
never seen returns the empty value.  This holds for the text assembler
and, with each delta base64-decoded before accumulation, for the audio
assembler. -/
theorem assemblers_roundtrip :
    (∀ (key : String) (cs : List String),
      (textOnDone (textDeltas newTextAssembler key cs) ⟨key, ""⟩).1 = concatAll cs ∧
      (textOnDone (textDeltas newTextAssembler key cs) ⟨key, ""⟩).2.data key = none ∧
      (textOnDone (textOnDone (textDeltas newTextAssembler key cs) ⟨key, ""⟩).2
        ⟨key, ""⟩).1 = "") ∧
    (∀ key : String, (textOnDone newTextAssembler ⟨key, ""⟩).1 = "") ∧
    (∀ (key : String) (cs : List String) (bs : List (List ℕ)),
      decodeAll cs = some bs →
      ∃ a, audioDeltas newAudioAssembler key cs = some a ∧
        (audioOnDone a key).1 = bs.flatten ∧
        (audioOnDone a key).2.data key = none ∧
        (audioOnDone (audioOnDone a key).2 key).1 = []) ∧
    (∀ key : String, (audioOnDone newAudioAssembler key).1 = []) := by
  refine ⟨fun key cs => ⟨?_, ?_, ?_⟩, fun key => ?_, fun key cs bs h => ?_, fun key => ?_⟩
  · have h1 := (textDeltas_spec key cs newTextAssembler).1
    have h1' : ((textDeltas newTextAssembler key cs).data key).getD "" = concatAll cs := by
      rw [h1]; simp [newTextAssembler, String.empty_append]
    simp [textOnDone, h1']
  · simp [textOnDone]
  · simp [textOnDone]
  · simp [textOnDone, newTextAssembler]
  · obtain ⟨a, ha, hkey, _⟩ := audioDeltas_spec key cs bs newAudioAssembler h
    refine ⟨a, ha, ?_, by simp [audioOnDone], by simp [audioOnDone]⟩
    show (a.data key).getD [] = bs.flatten
    rw [hkey]; simp [newAudioAssembler]
  · simp [audioOnDone, newAudioAssembler]

/-- Witness for C1: two text deltas "ab", "cd" reassemble to "abcd"; two
audio deltas decoding to bytes 65 66 67 and 68 reassemble to their
concatenation. -/
theorem assemblers_roundtrip_witness :
    (textOnDone (textDeltas newTextAssembler "r" ["ab", "cd"]) ⟨"r", ""⟩).1 = "abcd" ∧
    ∃ a, audioDeltas newAudioAssembler "r" ["QUJD", "RA=="] = some a ∧
      (audioOnDone a "r").1 = [65, 66, 67, 68] := by
  constructor
  · have h := (assemblers_roundtrip.1 "r" ["ab", "cd"]).1
    rw [h]; rfl
  · obtain ⟨a, ha, h1, _, _⟩ := assemblers_roundtrip.2.2.1 "r" ["QUJD", "RA=="]
      [[65, 66, 67], [68]] (by rfl)
    exact ⟨a, ha, by rw [h1]; rfl⟩

/-! ## Claim C2: the backoff delay bound -/

/-- C2, counterexample: with base 1 s, multiplier 2, max 10 s and jitter
0.1, attempt 4 computes 16 s, capped to 10 s, and then the jitter term —
added after the cap — yields 11 s, which exceeds the configured maximum.
So the delay does not stay below `MaxDelay` for every non-negative jitter
fraction. -/
theorem calculateDelay_exceeds_maxDelay :
    cfgJitterEx.jitter ≥ 0 ∧
    cfgJitterEx.maxDelay = 10000000000 ∧
    calculateDelay 4 cfgJitterEx = 11000000000 ∧
    ¬ ((calculateDelay 4 cfgJitterEx : ℚ) ≤ cfgJitterEx.maxDelay) := by
  refine ⟨by norm_num [cfgJitterEx], rfl,
    by norm_num [calculateDelay, calculateDelayQ, cfgJitterEx], ?_⟩
  norm_num [calculateDelay, calculateDelayQ, cfgJitterEx]

/-- C2, amended: for every attempt index and every configuration with
non-negative jitter fraction and non-negative maximum delay, the computed
delay never exceeds `MaxDelay * (1 + Jitter)`: the exponential term is
capped at `MaxDelay` and only the jitter term — at most `Jitter` times the
capped value — is added on top. -/
theorem calculateDelay_le_maxDelay_with_jitter (attempt : ℕ)
    (c : RetryConfig) (hj : 0 ≤ c.jitter) (hm : 0 ≤ c.maxDelay) :
    (calculateDelay attempt c : ℚ) ≤ c.maxDelay * (1 + c.jitter) := by
  have hq : calculateDelayQ attempt c ≤ c.maxDelay * (1 + c.jitter) := by
    unfold calculateDelayQ
    set raw := c.baseDelay * c.multiplier ^ attempt with hraw
    by_cases h1 : raw > c.maxDelay
    · simp only [if_pos h1]
      by_cases h2 : c.jitter > 0
      · simp only [if_pos h2]; nlinarith
      · simp only [if_neg h2]; nlinarith [le_antisymm (not_lt.1 h2) hj]
    · simp only [if_neg h1]
      have hle : raw ≤ c.maxDelay := not_lt.1 h1
      by_cases h2 : c.jitter > 0
      · simp only [if_pos h2]; nlinarith
      · simp only [if_neg h2]
        have hj0 : c.jitter = 0 := le_antisymm (not_lt.1 h2) hj
        rw [hj0] at *; nlinarith
  unfold calculateDelay
  by_cases hq0 : calculateDelayQ attempt c < 0
  · simp only [if_pos hq0]
    have h1 : (0:ℤ) ≤ Int.floor (-(calculateDelayQ attempt c)) :=
      Int.floor_nonneg.2 (by linarith)
    have h2 : ((Int.floor (-(calculateDelayQ attempt c)) : ℤ) : ℚ) ≥ 0 := by
      exact_mod_cast h1
    have hbound : 0 ≤ c.maxDelay * (1 + c.jitter) := mul_nonneg hm (by linarith)
    push_cast
    linarith
  · simp only [if_neg hq0]
    calc ((Int.floor (calculateDelayQ attempt c) : ℤ) : ℚ)
        ≤ calculateDelayQ attempt c := Int.floor_le _
      _ ≤ c.maxDelay * (1 + c.jitter) := hq

/-- Witness for the amended C2 bound at the default configuration,
attempt 0. -/
theorem calculateDelay_le_maxDelay_with_jitter_witness :
    (0:ℚ) ≤ defaultRetryConfig.jitter ∧ (0:ℚ) ≤ defaultRetryConfig.maxDelay ∧
    (calculateDelay 0 defaultRetryConfig : ℚ) ≤
      defaultRetryConfig.maxDelay * (1 + defaultRetryConfig.jitter) :=
  ⟨by norm_num [defaultRetryConfig], by norm_num [defaultRetryConfig],
    calculateDelay_le_maxDelay_with_jitter 0 defaultRetryConfig
      (by norm_num [defaultRetryConfig]) (by norm_num [defaultRetryConfig])⟩

/-! ## Claim C3: `WithRetry` attempt accounting -/

/-- One unfolding of the `WithRetry` loop when the current attempt fails
retryably and iterations remain. -/
lemma withRetryAux_step (config : RetryConfig) (op : ℕ → Option GoError)
    (attempt left : ℕ) (e : GoError) (he : op attempt = some e)
    (hnr : config.nonRetryable e = false) (hl : left ≠ 0) :
    withRetryAux config op attempt (left + 1) =
      ((withRetryAux config op (attempt + 1) left).1,
       (withRetryAux config op (attempt + 1) left).2 + 1) := by
  conv_lhs => rw [withRetryAux]
  rw [he]
  simp [hnr, hl]

/-- If every attempt fails with a retryable error, the loop performs all
its iterations and ends on the last attempt's error. -/
lemma withRetryAux_allFail (config : RetryConfig) (op : ℕ → Option GoError)
    (p : GoError → Bool) (hp : config.retryableErrors = some p) :
    ∀ (left attempt : ℕ),
      (∀ i, attempt ≤ i → i ≤ attempt + left → ∃ e, op i = some e ∧ p e = true) →
      ∃ e, op (attempt + left) = some e ∧ p e = true ∧
        withRetryAux config op attempt (left + 1) = (some e, left + 1) := by
  intro left
  induction left with
  | zero =>
    intro attempt h
    obtain ⟨e, he, hpe⟩ := h attempt le_rfl (by omega)
    refine ⟨e, by simpa using he, hpe, ?_⟩
    simp [withRetryAux, he, RetryConfig.nonRetryable, hp, hpe]
  | succ left ih =>
    intro attempt h
    obtain ⟨e, he, hpe⟩ := h attempt le_rfl (by omega)
    obtain ⟨e', he', hpe', haux⟩ := ih (attempt + 1)
      (fun i h1 h2 => h i (by omega) (by omega))
    refine ⟨e', ?_, hpe', ?_⟩
    · rw [show attempt + (left + 1) = attempt + 1 + left from by omega]
      exact he'
    · rw [withRetryAux_step config op attempt (left + 1) e he
        (by simp [RetryConfig.nonRetryable, hp, hpe]) (by omega), haux]

/-- If attempt `k` succeeds after `k` retryable failures, the loop stops
there with `k + 1` invocations. -/
lemma withRetryAux_succeeds (config : RetryConfig) (op : ℕ → Option GoError)
    (p : GoError → Bool) (hp : config.retryableErrors = some p) :
    ∀ (k left attempt : ℕ), k ≤ left →
      op (attempt + k) = none →
      (∀ i, attempt ≤ i → i < attempt + k → ∃ e, op i = some e ∧ p e = true) →
      withRetryAux config op attempt (left + 1) = (none, k + 1) := by
  intro k
  induction k with
  | zero =>
    intro left attempt _ hok _
    simp [withRetryAux, show op attempt = none from by simpa using hok]
  | succ k ih =>
    intro left attempt hkle hok hfail
    obtain ⟨e, he, hpe⟩ := hfail attempt le_rfl (by omega)
    obtain ⟨left', rfl⟩ : ∃ l, left = l + 1 := ⟨left - 1, by omega⟩
    have haux := ih left' (attempt + 1) (by omega)
      (by rw [show attempt + 1 + k = attempt + (k + 1) from by omega]; exact hok)
      (fun i h1 h2 => hfail i (by omega) (by omega))
    rw [withRetryAux_step config op attempt (left' + 1) e he
      (by simp [RetryConfig.nonRetryable, hp, hpe]) (by omega), haux]

/-- C3: with `MaxRetries = N` and a predicate classifying every produced
error as retryable, an always-failing operation is invoked exactly N + 1
times and the returned error wraps the last failure and reports N + 1
attempts; and if attempt `k ≤ N` succeeds after retryable failures, the
call returns `nil` immediately with exactly `k + 1` invocations. -/
theorem withRetry_spec (config : RetryConfig) (op : ℕ → Option GoError)
    (p : GoError → Bool) (hp : config.retryableErrors = some p) :
    ((∀ i, i ≤ config.maxRetries → ∃ e, op i = some e ∧ p e = true) →
      ∃ e, op config.maxRetries = some e ∧
        withRetry config op =
          (.exhausted (config.maxRetries + 1) e, config.maxRetries + 1)) ∧
    (∀ k, k ≤ config.maxRetries → op k = none →
      (∀ i, i < k → ∃ e, op i = some e ∧ p e = true) →
      withRetry config op = (.ok, k + 1)) := by
  constructor
  · intro h
    obtain ⟨e, he, hpe, haux⟩ := withRetryAux_allFail config op p hp
      config.maxRetries 0 (fun i h1 h2 => h i (by omega))
    refine ⟨e, by simpa using he, ?_⟩
    simp [withRetry, haux, RetryConfig.nonRetryable, hp, hpe]
  · intro k hk hok hfail
    have haux := withRetryAux_succeeds config op p hp k config.maxRetries 0 hk
      (by simpa using hok) (fun i h1 h2 => hfail i (by omega))
    simp [withRetry, haux]

/-- Witness for C3 at the default configuration: an operation that always
fails with a connection error is invoked 4 times; an operation that
succeeds at once is invoked once. -/
theorem withRetry_spec_witness :
    withRetry defaultRetryConfig (fun _ => some (.connectionE "u" "dial" .nilErr)) =
      (.exhausted 4 (.connectionE "u" "dial" .nilErr), 4) ∧
    withRetry defaultRetryConfig (fun _ => none) = (.ok, 1) := by
  constructor
  · obtain ⟨e, he, hw⟩ := (withRetry_spec defaultRetryConfig
      (fun _ => some (.connectionE "u" "dial" .nilErr)) defaultRetryableErrors rfl).1
      (fun i _ => ⟨.connectionE "u" "dial" .nilErr, rfl, rfl⟩)
    obtain rfl : e = GoError.connectionE "u" "dial" .nilErr := by
      simpa using he.symm
    exact hw
  · exact (withRetry_spec defaultRetryConfig (fun _ => none)
      defaultRetryableErrors rfl).2 0 (by omega) rfl
      (fun i hi => absurd hi (by omega))

/-! ## Claims C4, C5, C10: the circuit breaker -/

lemma onSuccess_failures (cb : CircuitBreaker) : (onSuccess cb).failures = 0 := by
  unfold onSuccess
  dsimp only
  split <;> rfl

lemma execute_closed_fail (cfg : CircuitBreakerConfig) (f s lft now : ℤ)
    (h : f + 1 < cfg.failureThreshold) :
    (execute now true ⟨cfg, .closed, f, s, lft⟩).2 =
      ⟨cfg, .closed, f + 1, 0, now⟩ := by
  simp [execute, shouldAllow, onFailure]
  omega

lemma execute_closed_success (cfg : CircuitBreakerConfig) (f s lft now : ℤ) :
    (execute now false ⟨cfg, .closed, f, s, lft⟩).2 =
      ⟨cfg, .closed, 0, s + 1, lft⟩ := by
  simp [execute, shouldAllow, onSuccess]

lemma fail_run_below : ∀ (ts : List ℤ) (cfg : CircuitBreakerConfig) (f lft : ℤ),
    (f + ts.length : ℤ) < cfg.failureThreshold →
    executeSeq (ts.map fun t => (t, true)) ⟨cfg, .closed, f, 0, lft⟩ =
      ⟨cfg, .closed, f + ts.length, 0, ts.getLastD lft⟩ := by
  intro ts
  induction ts with
  | nil => intro cfg f lft _; simp [executeSeq]
  | cons t ts ih =>
    intro cfg f lft h
    have hstep : executeSeq ((t :: ts).map fun t => (t, true)) ⟨cfg, .closed, f, 0, lft⟩ =
        executeSeq (ts.map fun t => (t, true)) (execute t true ⟨cfg, .closed, f, 0, lft⟩).2 := rfl
    rw [hstep, execute_closed_fail cfg f 0 lft t (by simp at h ⊢; omega),
      ih cfg (f + 1) t (by simp at h ⊢; omega), List.getLastD_cons]
    simp
    omega

lemma fail_run_opens : ∀ (ts : List ℤ) (cfg : CircuitBreakerConfig) (f lft : ℤ),
    ts ≠ [] → (f + ts.length : ℤ) = cfg.failureThreshold →
    executeSeq (ts.map fun t => (t, true)) ⟨cfg, .closed, f, 0, lft⟩ =
      ⟨cfg, .open, cfg.failureThreshold, 0, ts.getLastD lft⟩ := by
  intro ts
  induction ts with
  | nil => intro cfg f lft hne _; exact absurd rfl hne
  | cons t ts ih =>
    intro cfg f lft _ h
    have hstep : executeSeq ((t :: ts).map fun t => (t, true)) ⟨cfg, .closed, f, 0, lft⟩ =
        executeSeq (ts.map fun t => (t, true)) (execute t true ⟨cfg, .closed, f, 0, lft⟩).2 := rfl
    cases ts with
    | nil =>
      have hf : f + 1 = cfg.failureThreshold := by simp at h; omega
      rw [hstep]
      simp [executeSeq, execute, shouldAllow, onFailure, hf]
    | cons t2 ts2 =>
      have hlt : f + 1 < cfg.failureThreshold := by simp at h ⊢; omega
      rw [hstep, execute_closed_fail cfg f 0 lft t hlt,
        ih cfg (f + 1) t (by simp) (by simp at h ⊢; omega)]
      simp only [List.getLastD_cons]

lemma success_run : ∀ (ts : List ℤ) (cfg : CircuitBreakerConfig) (f j lft : ℤ),
    ts ≠ [] → (j + ts.length : ℤ) = cfg.successThreshold →
    executeSeq (ts.map fun t => (t, false)) ⟨cfg, .halfOpen, f, j, lft⟩ =
      ⟨cfg, .closed, 0, cfg.successThreshold, lft⟩ := by
  intro ts
  induction ts with
  | nil => intro cfg f j lft hne _; exact absurd rfl hne
  | cons t ts ih =>
    intro cfg f j lft _ h
    have hstep : executeSeq ((t :: ts).map fun t => (t, false)) ⟨cfg, .halfOpen, f, j, lft⟩ =
        executeSeq (ts.map fun t => (t, false)) (execute t false ⟨cfg, .halfOpen, f, j, lft⟩).2 := rfl
    cases ts with
    | nil =>
      have hj : j + 1 = cfg.successThreshold := by simp at h; omega
      rw [hstep]
      simp [executeSeq, execute, shouldAllow, onSuccess, hj]
    | cons t2 ts2 =>
      have hlt : j + 1 < cfg.successThreshold := by simp at h ⊢; omega
      have hstep2 : (execute t false ⟨cfg, .halfOpen, f, j, lft⟩).2 =
          ⟨cfg, .halfOpen, 0, j + 1, lft⟩ := by
        simp [execute, shouldAllow, onSuccess]
        omega
      rw [hstep, hstep2, ih cfg 0 (j + 1) lft (by simp) (by simp at h ⊢; omega)]

/-- C4: the circuit breaker state machine.  (1) From a fresh breaker,
`FailureThreshold` consecutive failures open the circuit.  (2) While open
and before `RecoveryTimeout` has elapsed since the last failure, every
`Execute` returns the circuit-open error without invoking the operation
and leaves the breaker unchanged.  (3) Once the timeout has elapsed,
`shouldAllow` lets the next call through and moves the state to
half-open; `SuccessThreshold` consecutive successes then close the
circuit. -/
theorem circuitBreaker_state_machine :
    (∀ (cfg : CircuitBreakerConfig) (ts : List ℤ), 1 ≤ cfg.failureThreshold →
      (ts.length : ℤ) = cfg.failureThreshold →
      (executeSeq (ts.map fun t => (t, true)) (newCircuitBreaker cfg)).state =
        .open) ∧
    (∀ (cb : CircuitBreaker) (now : ℤ) (opFails : Bool), cb.state = .open →
      now - cb.lastFailureTime < cb.config.recoveryTimeout →
      execute now opFails cb = (.circuitOpen, cb)) ∧
    (∀ (cb : CircuitBreaker) (now : ℤ), cb.state = .open →
      now - cb.lastFailureTime ≥ cb.config.recoveryTimeout →
      shouldAllow now cb = (true, { cb with state := .halfOpen }) ∧
      (∀ ts : List ℤ, 1 ≤ cb.config.successThreshold → cb.successes = 0 →
        (ts.length : ℤ) = cb.config.successThreshold - 1 →
        (executeSeq ((now, false) :: ts.map fun t => (t, false)) cb).state =
          .closed)) := by
  refine ⟨fun cfg ts h1 hlen => ?_, fun cb now opFails hst hlt => ?_,
    fun cb now hst helap => ⟨?_, fun ts hM hs hlen => ?_⟩⟩
  · have hne : ts ≠ [] := by
      cases ts with
      | nil => simp at hlen; omega
      | cons a l => simp
    rw [show newCircuitBreaker cfg = ⟨cfg, .closed, 0, 0, 0⟩ from rfl,
      fail_run_opens ts cfg 0 0 hne (by omega)]
  · cases cb with
    | mk cfg' st f s lft =>
      subst hst
      simp only [CircuitBreaker.lastFailureTime] at hlt
      have hsa : shouldAllow now ⟨cfg', .open, f, s, lft⟩ =
          (false, ⟨cfg', .open, f, s, lft⟩) := by
        simp only [shouldAllow]
        rw [if_neg (by simp at hlt ⊢; omega)]
      simp [execute, hsa]
  · cases cb with
    | mk cfg' st f s lft =>
      subst hst
      simp only [CircuitBreaker.lastFailureTime, CircuitBreaker.config] at helap
      simp only [shouldAllow]
      rw [if_pos (by omega)]
  · cases cb with
    | mk cfg' st f s lft =>
      subst hst
      subst hs
      simp only [CircuitBreaker.lastFailureTime, CircuitBreaker.config] at helap hM hlen
      have hsa : shouldAllow now ⟨cfg', .open, f, 0, lft⟩ =
          (true, ⟨cfg', .halfOpen, f, 0, lft⟩) := by
        simp only [shouldAllow]
        rw [if_pos (by omega)]
      have hstep : executeSeq ((now, false) :: ts.map fun t => (t, false))
          ⟨cfg', .open, f, 0, lft⟩ =
          executeSeq (ts.map fun t => (t, false))
            (execute now false ⟨cfg', .open, f, 0, lft⟩).2 := rfl
      have hexec : (execute now false ⟨cfg', .open, f, 0, lft⟩).2 =
          onSuccess ⟨cfg', .halfOpen, f, 0, lft⟩ := by
        simp [execute, hsa]
      by_cases hM1 : (1 : ℤ) ≥ cfg'.successThreshold
      · have hMeq : cfg'.successThreshold = 1 := by omega
        have hts : ts = [] := by
          cases ts with
          | nil => rfl
          | cons a l => simp [hMeq] at hlen; omega
        rw [hstep, hexec, hts]
        simp [executeSeq, onSuccess, hMeq]
      · have hexec2 : onSuccess ⟨cfg', .halfOpen, f, 0, lft⟩ =
            ⟨cfg', .halfOpen, 0, 1, lft⟩ := by
          simp [onSuccess]
          omega
        have hne : ts ≠ [] := by
          cases ts with
          | nil => simp at hlen; omega
          | cons a l => simp
        rw [hstep, hexec, hexec2,
          success_run ts cfg' 0 1 lft hne (by omega)]

/-- Witness for C4 with threshold 2, timeout 10, success threshold 2. -/
theorem circuitBreaker_state_machine_witness :
    (executeSeq ([3, 4].map fun t => ((t : ℤ), true))
      (newCircuitBreaker ⟨2, 10, 2⟩)).state = .open ∧
    execute 5 true ⟨⟨2, 10, 2⟩, .open, 2, 0, 4⟩ =
      (.circuitOpen, ⟨⟨2, 10, 2⟩, .open, 2, 0, 4⟩) ∧
    (executeSeq ((20, false) :: [21].map fun t => ((t : ℤ), false))
      ⟨⟨2, 10, 2⟩, .open, 2, 0, 4⟩).state = .closed :=
  ⟨circuitBreaker_state_machine.1 ⟨2, 10, 2⟩ [3, 4] (by norm_num) (by simp),
   circuitBreaker_state_machine.2.1 _ 5 true rfl (by norm_num),
   (circuitBreaker_state_machine.2.2 _ 20 rfl (by norm_num)).2 [21]
     (by norm_num) rfl (by simp)⟩

/-- C5, counterexample: with `FailureThreshold = 2`, after the breaker
re-enters half-open and records one success, a single failure leaves the
state half-open — it does *not* immediately return to open, because
`onFailure` re-opens only when the freshly incremented failure counter
reaches the threshold and the preceding success reset it to zero. -/
theorem halfOpen_failure_keeps_halfOpen :
    cbHalfOpenAfterSuccess.state = .halfOpen ∧
    (execute 11 true cbHalfOpenAfterSuccess).2.state = .halfOpen ∧
    ¬ ((execute 11 true cbHalfOpenAfterSuccess).2.state = .open) ∧
    (1 : ℤ) ≤ cbHalfOpenAfterSuccess.config.failureThreshold := by decide

/-- C5, amended: a failure while half-open always resets the success
counter, stamps the last-failure time with the current instant, and
increments the failure counter; the breaker returns to open exactly when
that incremented counter reaches `FailureThreshold` (in particular
immediately when `FailureThreshold = 1`, or on the first failure after
entering half-open, when the counter still holds the opening failures). -/
theorem halfOpen_failure_behavior (cb : CircuitBreaker) (now : ℤ)
    (h : cb.state = .halfOpen) :
    execute now true cb = (.opError,
      { cb with
          state := if cb.failures + 1 ≥ cb.config.failureThreshold then .open
                   else .halfOpen,
          failures := cb.failures + 1, successes := 0,
          lastFailureTime := now }) := by
  cases cb with
  | mk cfg st f s lft =>
    subst h
    by_cases hthr : f + 1 ≥ cfg.failureThreshold
    · simp [execute, shouldAllow, onFailure, hthr]
    · simp [execute, shouldAllow, onFailure, hthr]

/-- Witness for the amended C5 at a half-open breaker with threshold 1. -/
theorem halfOpen_failure_behavior_witness :
    execute 7 true ⟨⟨1, 5, 1⟩, .halfOpen, 0, 0, 0⟩ =
      (.opError, ⟨⟨1, 5, 1⟩, .open, 1, 0, 7⟩) := by
  have h := halfOpen_failure_behavior ⟨⟨1, 5, 1⟩, .halfOpen, 0, 0, 0⟩ 7 rfl
  rw [h]
  decide

/-- C10: every successful operation that is actually executed through the
breaker resets the consecutive-failure counter to zero, whatever the
state; consequently, from a closed breaker, any sequence of operations in
which no run of `FailureThreshold` consecutive failures occurs leaves the
breaker closed — interleaved successes restart the count and
non-consecutive failures never open the circuit. -/
theorem success_resets_failures_and_only_consecutive_failures_open :
    (∀ (cb : CircuitBreaker) (now : ℤ), (shouldAllow now cb).1 = true →
      (execute now false cb).2.failures = 0) ∧
    (∀ (steps : List (ℤ × Bool)) (cb : CircuitBreaker), cb.state = .closed →
      failRunsBelow cb.config.failureThreshold cb.failures
        (steps.map Prod.snd) = true →
      (executeSeq steps cb).state = .closed) := by
  constructor
  · intro cb now h
    have hx : (execute now false cb).2 = onSuccess (shouldAllow now cb).2 := by
      simp [execute, h]
    rw [hx, onSuccess_failures]
  · intro steps
    induction steps with
    | nil => intro cb h _; simpa [executeSeq] using h
    | cons s rest ih =>
      intro cb hcl hrun
      obtain ⟨now, b⟩ := s
      cases cb with
      | mk cfg st f sc lft =>
        subst hcl
        cases b with
        | false =>
          have hstep : executeSeq ((now, false) :: rest) ⟨cfg, .closed, f, sc, lft⟩ =
              executeSeq rest ⟨cfg, .closed, 0, sc + 1, lft⟩ := by
            rw [show executeSeq ((now, false) :: rest) ⟨cfg, .closed, f, sc, lft⟩ =
              executeSeq rest
                (execute now false ⟨cfg, .closed, f, sc, lft⟩).2 from rfl,
              execute_closed_success]
          rw [hstep]
          apply ih _ rfl
          simpa [failRunsBelow] using hrun
        | true =>
          simp only [List.map_cons, failRunsBelow] at hrun
          by_cases hlt : f + 1 < cfg.failureThreshold
          · rw [if_pos hlt] at hrun
            have hstep : executeSeq ((now, true) :: rest) ⟨cfg, .closed, f, sc, lft⟩ =
                executeSeq rest ⟨cfg, .closed, f + 1, 0, now⟩ := by
              rw [show executeSeq ((now, true) :: rest) ⟨cfg, .closed, f, sc, lft⟩ =
                executeSeq rest
                  (execute now true ⟨cfg, .closed, f, sc, lft⟩).2 from rfl,
                execute_closed_fail cfg f sc lft now hlt]
            rw [hstep]
            exact ih _ rfl hrun
          · rw [if_neg hlt] at hrun
            exact absurd hrun (by simp)

/-- Witness for C10: a success in half-open clears the failure counter,
and failure–success–failure with threshold 2 keeps the breaker closed. -/
theorem success_resets_failures_witness :
    (execute 5 false ⟨⟨2, 5, 2⟩, .halfOpen, 1, 0, 0⟩).2.failures = 0 ∧
    (executeSeq [((0 : ℤ), true), (1, false), (2, true)]
      (newCircuitBreaker ⟨2, 5, 2⟩)).state = .closed :=
  ⟨success_resets_failures_and_only_consecutive_failures_open.1 _ 5 (by decide),
   success_resets_failures_and_only_consecutive_failures_open.2
     [((0 : ℤ), true), (1, false), (2, true)] _ rfl (by decide)⟩

/-! ## Claim C6: validation errors and the default retry policy -/

/-- C6: a session that fails validation makes `SessionUpdate` return a
`SendError` wrapping the validation error, and the default retry policy
classifies that error as *retryable*, so `WithRetry` with the default
configuration invokes the operation 4 times (MaxRetries = 3 plus the
initial attempt) instead of once.  This contradicts the code's own comment
"Don't retry configuration or validation errors": only `*ConfigError` is
excluded, and validation failures are wrapped as `*SendError`. -/
theorem sessionUpdate_validation_error_is_retried :
    validateSession badSessionC6 = some (.invalidVoice "invalid") ∧
    sessionUpdate badSessionC6 = some (.sendE "session.update" ""
      (.plain (validationMessage (.invalidVoice "invalid")))) ∧
    defaultRetryableErrors ((sessionUpdate badSessionC6).getD .nilErr) = true ∧
    (withRetry defaultRetryConfig (fun _ => sessionUpdate badSessionC6)).2 = 4 :=
  ⟨by decide, by decide, by decide, by decide⟩

/-! ## Claim C7: session validation -/

lemma checkVoice_eq_none (s : Session) :
    checkVoice s = none ↔ ∀ v ∈ s.voice, v ∈ validVoices := by
  cases hv : s.voice with
  | none => simp [checkVoice, hv]
  | some v => by_cases h : v ∈ validVoices <;> simp [checkVoice, hv, h]

lemma checkInputFormat_eq_none (s : Session) :
    checkInputFormat s = none ↔ ∀ f ∈ s.inputAudioFormat, f ∈ validFormats := by
  cases hv : s.inputAudioFormat with
  | none => simp [checkInputFormat, hv]
  | some v => by_cases h : v ∈ validFormats <;> simp [checkInputFormat, hv, h]

lemma checkOutputFormat_eq_none (s : Session) :
    checkOutputFormat s = none ↔ ∀ f ∈ s.outputAudioFormat, f ∈ validFormats := by
  cases hv : s.outputAudioFormat with
  | none => simp [checkOutputFormat, hv]
  | some v => by_cases h : v ∈ validFormats <;> simp [checkOutputFormat, hv, h]

lemma checkInstructions_eq_none (s : Session) :
    checkInstructions s = none ↔ ∀ ins ∈ s.instructions, goLen ins ≤ 10000 := by
  cases hv : s.instructions with
  | none => simp [checkInstructions, hv]
  | some v =>
    by_cases h : goLen v > 10000 <;> simp [checkInstructions, hv, h] <;> omega

lemma checkTurnDetection_eq_none (s : Session) :
    checkTurnDetection s = none ↔ ∀ td ∈ s.turnDetection, turnDetectionOK td := by
  cases htd : s.turnDetection with
  | none => simp [checkTurnDetection, htd]
  | some td =>
    obtain ⟨ty, th, pp, sd, cr, ir, eg⟩ := td
    simp only [checkTurnDetection, htd, turnDetectionOK, Option.mem_def,
      Option.some.injEq, forall_eq']
    by_cases h1 : ty = ""
    · subst h1
      simp
    · rw [if_neg h1]
      by_cases hsrv : ty = "server_vad"
      · subst hsrv
        rw [if_neg (by decide : ¬("server_vad" ∉ validTurnTypes)),
          if_pos rfl, if_neg (by decide : ¬("server_vad" = "semantic_vad")),
          Option.orElse_none]
        constructor
        · intro h
          refine ⟨h1, by decide, fun _ => ?_, fun hc => absurd hc (by decide)⟩
          by_cases hth : th < 0 ∨ th > 1
          · rw [if_pos hth] at h; simp at h
          · by_cases hpp : pp < 0
            · rw [if_neg hth, if_pos hpp] at h; simp at h
            · by_cases hsd : sd < 0
              · rw [if_neg hth, if_neg hpp, if_pos hsd] at h; simp at h
              · push_neg at hth
                exact ⟨⟨hth.1, hth.2⟩, by omega, by omega⟩
        · rintro ⟨-, -, hs, -⟩
          obtain ⟨⟨h0, h1'⟩, hp, hq⟩ := hs rfl
          rw [if_neg (by push_neg; exact ⟨h0, h1'⟩), if_neg (by omega),
            if_neg (by omega)]
      · by_cases hsem : ty = "semantic_vad"
        · subst hsem
          rw [if_neg (by decide : ¬("semantic_vad" ∉ validTurnTypes)),
            if_neg (by decide : ¬("semantic_vad" = "server_vad")), if_pos rfl,
            Option.none_orElse]
          by_cases h3 : eg = ""
          · subst h3
            rw [if_neg (by simp)]
            exact iff_of_true rfl ⟨h1, by decide,
              fun hc => absurd hc (by decide), fun _ hne => absurd rfl hne⟩
          · by_cases h4 : eg ∈ validEagerness
            · rw [if_neg (fun hc => hc.2 h4)]
              exact iff_of_true rfl ⟨h1, by decide,
                fun hc => absurd hc (by decide), fun _ _ => h4⟩
            · rw [if_pos ⟨h3, h4⟩]
              exact iff_of_false (by simp) (fun h => absurd (h.2.2.2 rfl h3) h4)
        · have hnot : ty ∉ validTurnTypes := by
            simp [validTurnTypes, hsrv, hsem]
          rw [if_pos hnot]
          exact iff_of_false (by simp) (fun h => absurd h.2.1 hnot)

lemma validateSession_eq_none_iff (s : Session) :
    validateSession s = none ↔ sessionOKgo s := by
  unfold validateSession sessionOKgo
  rw [← checkVoice_eq_none, ← checkInputFormat_eq_none, ← checkOutputFormat_eq_none,
    ← checkTurnDetection_eq_none, ← checkInstructions_eq_none]
  cases hv : checkVoice s <;> cases hi : checkInputFormat s <;>
    cases ho : checkOutputFormat s <;> cases ht : checkTurnDetection s <;>
    cases hn : checkInstructions s <;> simp [hv, hi, ho, ht, hn]

lemma checkTurnDetection_thr15 :
    checkTurnDetection sessionThr15 = some (.thresholdOutOfRange (3/2)) := by
  simp only [checkTurnDetection, sessionThr15, tdThr]
  rw [if_neg (by decide : ¬("server_vad" = "")),
    if_neg (by decide : ¬("server_vad" ∉ validTurnTypes)), if_pos trivial,
    if_pos (by norm_num : (3:ℚ)/2 < 0 ∨ (3:ℚ)/2 > 1),
    if_neg (by decide : ¬("server_vad" = "semantic_vad"))]
  rfl

lemma checkTurnDetection_thr05 : checkTurnDetection sessionThr05 = none := by
  simp only [checkTurnDetection, sessionThr05, tdThr]
  rw [if_neg (by decide : ¬("server_vad" = "")),
    if_neg (by decide : ¬("server_vad" ∉ validTurnTypes)), if_pos trivial,
    if_neg (by norm_num : ¬((1:ℚ)/2 < 0 ∨ (1:ℚ)/2 > 1)),
    if_neg (by decide : ¬((0:ℤ) < 0)), if_neg (by decide : ¬((0:ℤ) < 0)),
    if_neg (by decide : ¬("server_vad" = "semantic_vad"))]
  rfl

lemma goFloatFmt_three_halves : goFloatFmt (3/2) = "1.500000" := by
  unfold goFloatFmt
  rw [show ((3:ℚ)/2 * 1000000) = ((1500000 : ℕ) : ℚ) by norm_num,
    Int.floor_natCast]
  decide

/-- C7, amended: `ValidateSession` accepts a session exactly when every
present field lies in its documented domain, with the instructions limit
measured in UTF-8 bytes (Go `len`) rather than characters; in particular a
server-VAD threshold of 1.5 is rejected with a message containing
"between 0.0 and 1.0" and a threshold of 0.5 is accepted. -/
theorem validateSession_spec :
    (∀ s, validateSession s = none ↔ sessionOKgo s) ∧
    validateSession sessionThr15 = some (.thresholdOutOfRange (3/2)) ∧
    "between 0.0 and 1.0".data <:+:
      (validationMessage (.thresholdOutOfRange (3/2))).data ∧
    validateSession sessionThr05 = none := by
  refine ⟨validateSession_eq_none_iff, ?_, ?_, ?_⟩
  · show (checkVoice sessionThr15 <|> checkInputFormat sessionThr15 <|>
      checkOutputFormat sessionThr15 <|> checkTurnDetection sessionThr15 <|>
      checkInstructions sessionThr15) = some (.thresholdOutOfRange (3/2))
    rw [show checkVoice sessionThr15 = none from rfl,
      show checkInputFormat sessionThr15 = none from rfl,
      show checkOutputFormat sessionThr15 = none from rfl,
      checkTurnDetection_thr15]
    rfl
  · simp only [validationMessage, goFloatFmt_three_halves]
    decide
  · show (checkVoice sessionThr05 <|> checkInputFormat sessionThr05 <|>
      checkOutputFormat sessionThr05 <|> checkTurnDetection sessionThr05 <|>
      checkInstructions sessionThr05) = none
    rw [show checkVoice sessionThr05 = none from rfl,
      show checkInputFormat sessionThr05 = none from rfl,
      show checkOutputFormat sessionThr05 = none from rfl,
      checkTurnDetection_thr05,
      show checkInstructions sessionThr05 = none from rfl]
    rfl

/-- Witness for the amended C7: a fully populated in-domain session is
accepted. -/
theorem validateSession_spec_witness :
    validateSession goodSession = none :=
  (validateSession_spec.1 goodSession).mpr
    (by
      refine ⟨?_, ?_, ?_, ?_, ?_⟩ <;>
        simp [goodSession, turnDetectionOK, validVoices, validFormats,
          validTurnTypes, goLen] <;> first | decide | norm_num)

/-- C7, counterexample: a session whose instructions hold 5001 two-byte
characters lies inside the claim's domains (5001 ≤ 10,000 characters),
yet `ValidateSession` rejects it, because Go `len` counts the 10,002
UTF-8 bytes — so validation is not total over the claim's
character-measured domain. -/
theorem validateSession_rejects_multibyte :
    sessionOKspec sessionMultibyte ∧ instructionsMultibyte.length ≤ 10000 ∧
    validateSession sessionMultibyte = some (.instructionsTooLong 10002) := by
  have hlen : instructionsMultibyte.length = 5001 := by
    show (List.replicate 5001 'é').length = 5001
    rw [List.length_replicate]
  have h2 : Char.utf8Size 'é' = 2 := by decide
  have hgo : goLen instructionsMultibyte = 10002 := by
    show ((List.replicate 5001 'é').map Char.utf8Size).sum = 10002
    rw [List.map_replicate, h2, List.sum_replicate, smul_eq_mul]
  have hn : checkInstructions sessionMultibyte =
      some (.instructionsTooLong 10002) := by
    show (if goLen instructionsMultibyte > 10000 then
      some (ValidationError.instructionsTooLong (goLen instructionsMultibyte))
      else none) = some (.instructionsTooLong 10002)
    rw [hgo]
    norm_num
  refine ⟨?_, by omega, ?_⟩
  · refine ⟨?_, ?_, ?_, ?_, ?_⟩
    · intro v hv
      rw [show sessionMultibyte.voice = none from rfl] at hv
      simp at hv
    · intro f hf
      rw [show sessionMultibyte.inputAudioFormat = none from rfl] at hf
      simp at hf
    · intro f hf
      rw [show sessionMultibyte.outputAudioFormat = none from rfl] at hf
      simp at hf
    · intro td htd
      rw [show sessionMultibyte.turnDetection = none from rfl] at htd
      simp at htd
    · intro ins hins
      rw [show sessionMultibyte.instructions = some instructionsMultibyte
        from rfl] at hins
      obtain rfl : ins = instructionsMultibyte := by
        exact (by simpa using hins : instructionsMultibyte = ins).symm
      rw [hlen]
      omega
  · show (checkVoice sessionMultibyte <|> checkInputFormat sessionMultibyte <|>
      checkOutputFormat sessionMultibyte <|> checkTurnDetection sessionMultibyte <|>
      checkInstructions sessionMultibyte) = some (.instructionsTooLong 10002)
    rw [show checkVoice sessionMultibyte = none from rfl,
      show checkInputFormat sessionMultibyte = none from rfl,
      show checkOutputFormat sessionMultibyte = none from rfl,
      show checkTurnDetection sessionMultibyte = none from rfl, hn]
    rfl

/-! ## Claim C8: `AppendPCM16` input validation -/

/-- The oversize message contains the words "too large". -/
theorem tooLargeMsg_contains (n : ℕ) :
    "too large".data <:+: (tooLargeMsg n).data := by
  refine ⟨"PCM data ".data,
    " (".data ++ (toString n ++ " bytes), maximum is 1048576 bytes").data, ?_⟩
  unfold tooLargeMsg
  simp [String.data_append]

/-- C8, counterexample: a payload of exactly 1 MiB + 1 bytes (1048577) has
odd length, so the parity check fires first and the error is the
"even number of bytes" one — whose message does not contain "too large" —
contradicting the claim that every over-1-MiB payload is rejected with a
message containing "too large". -/
theorem appendPCM16_1MiB_plus_one_rejected_for_parity :
    appendPCM16 (List.replicate 1048577 0) = .errEvenBytes evenBytesMsg ∧
    ¬ ("too large".data <:+: evenBytesMsg.data) :=
  ⟨by norm_num [appendPCM16], by decide⟩

/-- C8, amended: every odd-length payload is rejected with an error whose
message contains "even number of bytes" (this includes 1 MiB + 1 bytes);
every *even*-length payload longer than 1 MiB is rejected with an error
whose message contains "too large"; the empty payload succeeds as a no-op
with no transport write. -/
theorem appendPCM16_validation (pcm : List ℕ) :
    (pcm.length % 2 = 1 →
      appendPCM16 pcm = .errEvenBytes evenBytesMsg ∧
      "even number of bytes".data <:+: evenBytesMsg.data) ∧
    (pcm.length % 2 = 0 → pcm.length > 1048576 →
      appendPCM16 pcm = .errTooLarge (tooLargeMsg pcm.length) ∧
      "too large".data <:+: (tooLargeMsg pcm.length).data) ∧
    (pcm = [] → appendPCM16 pcm = .noWrite) := by
  refine ⟨fun hodd => ⟨?_, by decide⟩, fun heven hbig => ⟨?_, tooLargeMsg_contains _⟩,
    fun hnil => by simp [hnil, appendPCM16]⟩
  · unfold appendPCM16
    rw [if_neg (by omega), if_pos (by omega)]
  · unfold appendPCM16
    rw [if_neg (by omega), if_neg (by omega), if_pos (by omega)]

/-- Witness for the amended C8 statement: a 1-byte payload, a payload of
1 MiB + 2 bytes, and the empty payload. -/
theorem appendPCM16_validation_witness :
    appendPCM16 [0] = .errEvenBytes evenBytesMsg ∧
    appendPCM16 (List.replicate 1048578 0) = .errTooLarge (tooLargeMsg 1048578) ∧
    appendPCM16 [] = .noWrite := by
  refine ⟨((appendPCM16_validation [0]).1 (by norm_num)).1, ?_, ?_⟩
  · have h := ((appendPCM16_validation (List.replicate 1048578 0)).2.1
      (by rw [List.length_replicate]) (by rw [List.length_replicate]; omega)).1
    rwa [List.length_replicate] at h
  · exact (appendPCM16_validation []).2.2 rfl

/-! ## Claim C9: correlation-identifier uniqueness -/

/-- C9: `nextEventID` derives the identifier solely from the observed
`UnixNano` clock reading, so two invocations that observe the same reading
(achievable in a tight loop or concurrently on a clock with bounded
resolution) produce the *same* identifier: the generated list for two
calls at the same tick has a duplicate. -/
theorem nextEventID_collides_on_equal_clock_readings :
    eventIDsOf [1234567890, 1234567890] =
      ["evt_1234567890", "evt_1234567890"] ∧
    ¬ (eventIDsOf [1234567890, 1234567890]).Nodup :=
  ⟨rfl, by decide⟩

end Azrealtime
